import Mathlib

/-!
Verification of the CO2MPAS sampling *project* subsystem
(`co2mpas/sampling/project.py`): the per-project finite-state machine,
the commit-message codec, the dice-tag locator and the repository
facade, shallowly embedded in Lean.

External collaborators (the YAML library, the GPG signer, the
timestamp mailer/receiver and the report extractor) are passed in as
function parameters, exactly as the spec treats them: opaque
capability interfaces.
-/

namespace CO2MPAS

/-- The states of the project FSM, in the order they are listed in
`Project.__init__`. -/
inductive PState
  | BORN | INVALID | empty | wltp_out | wltp_inp | wltp_iof | tagged
  | mailed | diced | nedc
deriving DecidableEq, Repr

/-- Python's `state.isupper()` on the state's name: true exactly for the two
transient/special states `BORN` and `INVALID`. -/
def PState.isUpperState : PState → Bool
  | .BORN => true
  | .INVALID => true
  | _ => false

/-- The textual state name stored in commit messages. -/
def PState.name : PState → String
  | .BORN => "BORN"
  | .INVALID => "INVALID"
  | .empty => "empty"
  | .wltp_out => "wltp_out"
  | .wltp_inp => "wltp_inp"
  | .wltp_iof => "wltp_iof"
  | .tagged => "tagged"
  | .mailed => "mailed"
  | .diced => "diced"
  | .nedc => "nedc"

/-- Source `PFiles`: a batch of file paths partitioned into the three kinds
`inp`, `out`, `other` (a namedtuple of path lists in the source). -/
structure PFiles where
  inp : List String
  out : List String
  other : List String
deriving DecidableEq, Repr

/-- Guard `Project._is_inp_files`: `bool(pfiles and pfiles.inp and not (pfiles.out))`.
(A `PFiles` namedtuple is always truthy.) -/
def _is_inp_files (pf : PFiles) : Bool :=
  !pf.inp.isEmpty && pf.out.isEmpty

/-- Guard `Project._is_out_files`: `bool(pfiles and pfiles.out and not (pfiles.inp))`. -/
def _is_out_files (pf : PFiles) : Bool :=
  !pf.out.isEmpty && pf.inp.isEmpty

/-- Guard `Project._is_inp_out_files`: `bool(pfiles and pfiles.inp and pfiles.out)`. -/
def _is_inp_out_files (pf : PFiles) : Bool :=
  !pf.inp.isEmpty && !pf.out.isEmpty

/-- Guard `Project._is_other_files`:
`bool(pfiles and pfiles.other and not (pfiles.inp or pfiles.out))`. -/
def _is_other_files (pf : PFiles) : Bool :=
  !pf.other.isEmpty && !(!pf.inp.isEmpty || !pf.out.isEmpty)

/-- Guard `Project._is_force`: `event.kwargs.get('force', self.force)` --
the per-call `force` keyword argument, defaulting to the project's
configured `force` trait when the keyword is absent. -/
def _is_force (kwForce : Option Bool) (traitForce : Bool) : Bool :=
  kwForce.getD traitForce

/-- Faults raised by the subsystem (the source raises `CmdException`,
`MachineError`, `AssertionError` or `KeyError`; we keep them apart). -/
inductive Fault
  | machineError      -- transitions.MachineError: trigger invalid in current state
  | tooMany           -- CmdException "Too many dices for this project"
  | signFail          -- the external sign-and-tag step failed
  | assertViolation   -- a failed `assert` in the source
  | keyError          -- a failed dict/tag lookup in the source
  | projectIdMismatch -- CmdException: verdict belongs to another project
  | invalidName       -- CmdException "Invalid name %r for a project!"
  | projectExists     -- CmdException "Project %r already exists!"
  | parseError        -- CmdException "Failed parsing commit message"
deriving DecidableEq, Repr

/-- The `do_addfiles` trigger of the FSM: the transitions for the event
are tried in the declaration order of `Project.__init__`'s table, the
first one all of whose conditions hold fires; if every candidate's
conditions fail the trigger returns `False` and the state is
unchanged; if the current state has no `do_addfiles` transition at all
(`BORN`, `INVALID`, `mailed`) the transitions library raises
`MachineError`.  Returns the new state and the trigger's boolean
result.  (The staging side effects of `_cb_stage_pfiles` and the
commit are outside this state-level view and assumed to succeed.) -/
def do_addfiles (s : PState) (pf : PFiles) (kwForce : Option Bool)
    (traitForce : Bool) : Except Fault (PState × Bool) :=
  let force := _is_force kwForce traitForce
  match s with
  | .empty =>
      if _is_inp_out_files pf then .ok (.wltp_iof, true)
      else if _is_inp_files pf then .ok (.wltp_inp, true)
      else if _is_out_files pf then .ok (.wltp_out, true)
      else .ok (.empty, false)
  | .wltp_inp =>
      if _is_inp_out_files pf && force then .ok (.wltp_iof, true)
      else if _is_inp_files pf && force then .ok (.wltp_inp, true)
      else if _is_out_files pf then .ok (.wltp_iof, true)
      else .ok (.wltp_inp, false)
  | .wltp_out =>
      if _is_inp_out_files pf && force then .ok (.wltp_iof, true)
      else if _is_out_files pf && force then .ok (.wltp_out, true)
      else if _is_inp_files pf then .ok (.wltp_iof, true)
      else .ok (.wltp_out, false)
  | .tagged =>
      if _is_inp_out_files pf && force then .ok (.wltp_iof, true)
      else .ok (.tagged, false)
  | .wltp_iof =>
      if force then .ok (.wltp_iof, true) else .ok (.wltp_iof, false)
  | .diced =>
      if _is_other_files pf then .ok (.nedc, true) else .ok (.diced, false)
  | .nedc =>
      if _is_other_files pf && force then .ok (.nedc, true)
      else .ok (.nedc, false)
  | .BORN => .error .machineError
  | .INVALID => .error .machineError
  | .mailed => .error .machineError

/-- The `add_files` guard table as the spec's transition table states
it (spec section 4.2), written from the spec's words: the destination
for each valid `(source, kind-combination, force)` tuple, `none` for
invalid tuples.  "inp-only" means input files present and no output
files (the batch's `other` slot is not consulted by the wltp rows);
"other-only" means other files present and neither inputs nor
outputs. -/
def addfilesDestSpec (s : PState) (pf : PFiles) (force : Bool) :
    Option PState :=
  let inpOut := !pf.inp.isEmpty && !pf.out.isEmpty
  let inpOnly := !pf.inp.isEmpty && pf.out.isEmpty
  let outOnly := !pf.out.isEmpty && pf.inp.isEmpty
  let otherOnly := !pf.other.isEmpty && pf.inp.isEmpty && pf.out.isEmpty
  match s with
  | .empty =>
      if inpOut then some .wltp_iof
      else if inpOnly then some .wltp_inp
      else if outOnly then some .wltp_out
      else none
  | .wltp_inp =>
      if inpOut && force then some .wltp_iof
      else if inpOnly && force then some .wltp_inp
      else if outOnly then some .wltp_iof
      else none
  | .wltp_out =>
      if inpOut && force then some .wltp_iof
      else if outOnly && force then some .wltp_out
      else if inpOnly then some .wltp_iof
      else none
  | .tagged => if inpOut && force then some .wltp_iof else none
  | .wltp_iof => if force then some .wltp_iof else none
  | .diced => if otherOnly then some .nedc else none
  | .nedc => if otherOnly && force then some .nedc else none
  | _ => none


/-! ### String helpers (Python semantics, over character lists) -/

/-- Python's `str.startswith`. -/
def strStartsWith (s pre : String) : Bool := pre.toList.isPrefixOf s.toList

/-- Python's `txt.split('.')` (keeps empty pieces, like `str.split` with
an explicit separator). -/
def splitDots : List Char → List (List Char)
  | [] => [[]]
  | c :: cs =>
      if c = '.' then [] :: splitDots cs
      else
        match splitDots cs with
        | g :: gs => (c :: g) :: gs
        | [] => [[c]]

/-- Python's lexicographic `<` on strings: code-point order, a proper
prefix is smaller. -/
def lexLt : List Char → List Char → Bool
  | [], [] => false
  | [], _ :: _ => true
  | _ :: _, [] => false
  | a :: cs, b :: ds =>
      if a < b then true else if b < a then false else lexLt cs ds

/-! ### The commit-message version check (`_CommitMsg`) -/

/-- Constant `co2mpas._version.__dice_report_version__` (re-exported by
`co2mpas/__init__.py`). -/
def __dice_report_version__ : String := "1.0.2"

/-- Source `_CommitMsg._check_commit_msg_version`, as a boolean: the source
raises `ValueError` exactly when this returns `false`.  Note the
components are compared as Python *strings*:
`msg_ver[1] > prog_ver[1]` is a lexicographic comparison. -/
def _check_commit_msg_version_ok (msg_ver_txt : String) : Bool :=
  let prog_ver := splitDots __dice_report_version__.toList
  let msg_ver := splitDots msg_ver_txt.toList
  !(msg_ver.length != 3 || msg_ver.getD 0 [] != prog_ver.getD 0 [] ||
    lexLt (prog_ver.getD 1 []) (msg_ver.getD 1 []))

/-- A digit string read as a number (`none` if empty or non-numeric). -/
def charsToNat? (cs : List Char) : Option Nat :=
  if cs.isEmpty then none
  else if cs.all Char.isDigit then
    some (cs.foldl (fun n c => 10 * n + (c.toNat - 48)) 0)
  else none

/-- The *claim's* reading of `check_version`, written from the spec's
words: succeed exactly when the major component equals the
implementation's major (1) and the minor component does not exceed the
implementation's minor (0), components compared *as numbers*. -/
def check_version_numeric_spec (txt : String) : Bool :=
  let comps := (splitDots txt.toList).map charsToNat?
  match comps.getD 0 none, comps.getD 1 none with
  | some maj, some minr => maj == 1 && decide (minr ≤ 0)
  | _, _ => false

/-! ### The dice-tag locator (`_find_dice_tag`) -/

/-- Source `_tname2ref_name`: qualify a project name with the `dices/` tag
namespace. -/
def _tname2ref_name (tname : String) : String :=
  if strStartsWith tname "dices/" then tname
  else "dices/" ++ tname

/-- Format `'%s/%d' % (tref, i)`: the ref name of the dice tag with attempt
index `i`. -/
def tagName (tref : String) (i : Nat) : String :=
  tref ++ "/" ++ Nat.repr i

/-- Python's `tagname in tags` / `tags[tagname]` on the repository's tag list:
the stored (signed) content of the named tag, if the tag exists. -/
def tagLookup (tags : List (String × String)) (name : String) :
    Option String :=
  match tags with
  | [] => none
  | t :: ts => if t.1 == name then some t.2 else tagLookup ts name

/-- What `_find_dice_tag` returns: the next unused tag name (with
`fetch_next`), `None`, or an existing tag reference (by ref name). -/
inductive FindResult
  | nextName (tagname : String)
  | noTag
  | tagRef (tagname : String)
deriving DecidableEq, Repr

/-- The `for i in range(max_dices_per_project)` loop of
`_find_dice_tag`; `fuel` is the number of remaining indices, `i` the
current index (so the loop bound is `i + fuel`).  Falling off the loop
raises the too-many-dices `CmdException`.  In the `i > 0` branch the
source indexes `tags[tagname]` directly; the `keyError` arm is its
would-be `KeyError` (unreachable from `_find_dice_tag` itself, since
reaching index `i` means index `i - 1` was present). -/
def _find_dice_tag_go (tags : List (String × String)) (tref : String)
    (fetchNext : Bool) (i : Nat) : Nat → Except Fault FindResult
  | 0 => .error .tooMany
  | fuel + 1 =>
      let tagname := tagName tref i
      if (tagLookup tags tagname).isNone then
        if fetchNext then .ok (.nextName tagname)
        else if i == 0 then .ok .noTag
        else
          match tagLookup tags (tagName tref (i - 1)) with
          | some _ => .ok (.tagRef (tagName tref (i - 1)))
          | none => .error .keyError
      else _find_dice_tag_go tags tref fetchNext (i + 1) fuel

/-- Source `_find_dice_tag(repo, pname, max_dices_per_project, fetch_next)` --
the repository's tags are modelled as the association list of
(ref-name, signed content). -/
def _find_dice_tag (tags : List (String × String)) (pname : String)
    (max_dices_per_project : Nat) (fetchNext : Bool) :
    Except Fault FindResult :=
  _find_dice_tag_go tags (_tname2ref_name pname) fetchNext 0
    max_dices_per_project


/-! ### The commit-message codec (`_CommitMsg`) -/

/-- A YAML value, in the fragment the codec produces and consumes:
scalars kept as strings, sequences, and mappings with string keys.
The YAML library itself is out of scope (an external collaborator);
its `dump`/`load` are passed in as function parameters. -/
inductive YVal
  | str (s : String)
  | list (l : List YVal)
  | map (m : List (String × YVal))

/-- Python's `str()` of a scalar commit-message field. -/
def YVal.strOf : YVal → String
  | .str s => s
  | _ => "<non-scalar>"

/-- The `_CommitMsg` namedtuple `(v, a, p, s, data)`; `data` is `None`
or the list of report records. -/
structure CommitMsg where
  v : YVal
  a : YVal
  p : YVal
  s : YVal
  data : Option (List YVal)

/-- The `clist` built by `dump_commit_msg`: the headline mapping with
the fields in the fixed order `v, a, p, s`, extended with the payload
records when `self.data` is truthy (a `None` or empty payload appends
nothing). -/
def commitMsgClist (r : CommitMsg) : YVal :=
  .list (.map [("v", r.v), ("a", r.a), ("p", r.p), ("s", r.s)] ::
    (match r.data with
     | some l => l
     | none => []))

/-- Source `_CommitMsg.dump_commit_msg`: YAML-dump the `clist`. -/
def dump_commit_msg (yamlDump : YVal → String) (r : CommitMsg) : String :=
  yamlDump (commitMsgClist r)

/-- The `^(:?object|tag) ` regex `_git_messaged_obj`.  (Note the
source's `(:?object|tag)` group: it matches a leading `object `,
`:object ` or `tag `.) -/
def _git_messaged_obj_match (s : String) : Bool :=
  strStartsWith s "object " || strStartsWith s ":object " ||
    strStartsWith s "tag "

/-- Source `_after_first_empty_line_regex.search(txt)` followed by
`txt[m.end():]`: drop everything up to and including the first empty
line (`\n\n` or `\n\r\n`); `none` when no empty line exists (the
source would then hit an `AttributeError` on `m.end()`, caught and
re-raised as the parse `CmdException`). -/
def dropThroughEmptyLine : List Char → Option (List Char)
  | '\n' :: '\n' :: rest => some rest
  | '\n' :: '\r' :: '\n' :: rest => some rest
  | _ :: rest => dropThroughEmptyLine rest
  | [] => none

/-- Lookup in a YAML mapping (Python dict access). -/
def lookupY (m : List (String × YVal)) (key : String) : Option YVal :=
  match m with
  | [] => none
  | e :: es => if e.1 == key then some e.2 else lookupY es key

/-- Source `_CommitMsg.parse_commit_msg`: strip the optional banner, YAML-load,
require a non-empty list, rebuild the namedtuple from the headline
mapping (`_CommitMsg(data=l[1:], **headline)` needs the headline keys
to be exactly `v, a, p, s`), and check the message version.  Every
failure is the `CmdException` "Failed parsing commit message". -/
def parse_commit_msg (load : String → Option YVal) (cmsg_txt : String) :
    Except Fault CommitMsg :=
  match (if _git_messaged_obj_match cmsg_txt then
           (dropThroughEmptyLine cmsg_txt.toList).map (fun cs => String.mk cs)
         else some cmsg_txt) with
  | none => .error .parseError
  | some txt =>
      match load txt with
      | some (.list (headline :: rest)) =>
          match headline with
          | .map entries =>
              match lookupY entries "v", lookupY entries "a",
                    lookupY entries "p", lookupY entries "s" with
              | some v, some a, some p, some s =>
                  if entries.length == 4 then
                    if _check_commit_msg_version_ok (YVal.strOf v) then
                      .ok ⟨v, a, p, s, some rest⟩
                    else .error .parseError
                  else .error .parseError
              | _, _, _, _ => .error .parseError
          | _ => .error .parseError
      | _ => .error .parseError

/-! ### The repository and the commit-or-tag primitive -/

/-- The state of the shared git repository that the subsystem mutates:
the checked-out project branch's commit-message chain (newest first)
and the repository's tags as (ref-name, stored signed content). -/
structure GitRepo where
  commits : List String
  tags : List (String × String)
deriving DecidableEq, Repr

/-- What `_cb_commit_or_tag` did: nothing (transient state or no
`action` on the event), or a commit (and possibly a signed tag) whose
message/content became `self.result`. -/
inductive CTOut
  | skipped
  | committed (result : String)
deriving DecidableEq, Repr

/-- Source `Project._cb_commit_or_tag`, the after-state-change hook: skip for
transient (uppercase) states or when the event carries no `action`;
otherwise commit the message; when entering `tagged` additionally
create the next signed dice tag (`sign` is the external
`repo.create_tag(..., sign=True)` collaborator returning the stored
tag content, `none` on failure) and read it back as the result; if
anything in the tagging step fails, the `finally` block reverts the
branch to the commit's immediate parent
(`repo.active_branch.commit = 'HEAD~'`) and the fault propagates. -/
def _cb_commit_or_tag (sign : String → String → Option String)
    (r : GitRepo) (pname : String) (max_dices_per_project : Nat)
    (state : PState) (action : Option String) (cmsg_txt : String) :
    Except (GitRepo × Fault) (GitRepo × CTOut) :=
  if state.isUpperState || action.isNone then .ok (r, .skipped)
  else
    let r1 : GitRepo := { r with commits := cmsg_txt :: r.commits }
    if state == .tagged then
      match _find_dice_tag r1.tags pname max_dices_per_project true with
      | .error f => .error ({ r1 with commits := r1.commits.tail }, f)
      | .ok (.nextName tagname) =>
          match sign tagname cmsg_txt with
          | some content =>
              .ok ({ r1 with tags := r1.tags ++ [(tagname, content)] },
                .committed content)
          | none => .error ({ r1 with commits := r1.commits.tail }, .signFail)
      | .ok _ => .error ({ r1 with commits := r1.commits.tail }, .assertViolation)
    else .ok (r1, .committed cmsg_txt)


/-! ### The in-memory project (`Project`) and its triggers -/

/-- The mutable per-project fields of the `Project` FSM, plus its
per-project configuration traits (`force`, `dry_run`,
`max_dices_per_project`, default 3). -/
structure Proj where
  pname : String
  state : PState
  result : Option String
  force : Bool
  dry_run : Bool
  max_dices_per_project : Nat
deriving DecidableEq, Repr

/-- Source `Project._make_commit_msg(action, data)`: build the versioned
`_CommitMsg` for the *current* state and dump it. -/
def _make_commit_msg (yamlDump : YVal → String) (pname : String)
    (state : PState) (action : String) (data : Option (List YVal)) :
    String :=
  dump_commit_msg yamlDump
    ⟨.str __dice_report_version__, .str action, .str pname,
     .str state.name, data⟩

/-- Source `read_dice_tag(repo, tag)`: the stored content of the named
(annotated, signed) tag object. -/
def read_dice_tag (tags : List (String × String)) (name : String) :
    Option String :=
  tagLookup tags name

/-- The body of a firing `do_prepmail` transition: the
`before_state_change` callbacks (`_cb_check_my_index`, assumed
consistent, and `_cb_clear_result`), the state change to `tagged`, the
`_cb_pepare_email` enter callback, and the `_cb_commit_or_tag` after
callback.  `report` is the output of the external report-extraction
collaborator on the staged inp+out files and `nfiles` their count;
`sign` is the external signer.  When a dice tag already exists
(anything truthy returned by `_find_dice_tag`) and the force trait is
not set, regeneration is skipped and the existing signed tag's content
becomes `result` -- no `action` is put on the event, so
`_cb_commit_or_tag` commits and tags nothing. -/
def do_prepmail_fire (yamlDump : YVal → String)
    (sign : String → String → Option String)
    (report : List YVal) (nfiles : Nat)
    (p : Proj) (r : GitRepo) : Except Fault (Proj × GitRepo × Bool) :=
  let p1 : Proj := { p with result := none, state := .tagged }
  match _find_dice_tag r.tags p.pname p.max_dices_per_project false with
  | .error f => .error f
  | .ok tagref =>
      let existing : Option String :=
        match tagref with
        | .noTag => none
        | .tagRef tn => some tn
        | .nextName tn => some tn
      match existing, p.force with
      | some tn, false =>
          match read_dice_tag r.tags tn with
          | some content => .ok ({ p1 with result := some content }, r, true)
          | none => .error .keyError
      | _, _ =>
          if p.dry_run then
            .ok ({ p1 with result := some (yamlDump (.list report)) }, r, true)
          else
            let action := "drep " ++ Nat.repr nfiles ++ " files"
            let cmsg := _make_commit_msg yamlDump p.pname .tagged action
              (some report)
            match _cb_commit_or_tag sign r p.pname p.max_dices_per_project
                .tagged (some action) cmsg with
            | .ok (r2, .committed res) =>
                .ok ({ p1 with result := some res }, r2, true)
            | .ok (r2, .skipped) => .ok (p1, r2, true)
            | .error (_, f) => .error f

/-- The `do_prepmail` trigger: rows `wltp_iof → tagged` and
`tagged → tagged` (unguarded) and `mailed → tagged` (guarded by
`_is_force`; the trigger is always invoked without a per-call `force`
keyword, so the guard reads the configured trait).  Any other source
state has no `do_prepmail` transition: `MachineError`. -/
def do_prepmail (yamlDump : YVal → String)
    (sign : String → String → Option String)
    (report : List YVal) (nfiles : Nat)
    (p : Proj) (r : GitRepo) : Except Fault (Proj × GitRepo × Bool) :=
  match p.state with
  | .wltp_iof => do_prepmail_fire yamlDump sign report nfiles p r
  | .tagged => do_prepmail_fire yamlDump sign report nfiles p r
  | .mailed =>
      if _is_force none p.force then
        do_prepmail_fire yamlDump sign report nfiles p r
      else .ok (p, r, false)
  | _ => .error .machineError

/-! ### Verdict storage (`_cond_is_diced`, `do_storedice`) -/

/-- The decoded timestamp-response verdict, reduced to the two fields
the subsystem reads: `verdict.get('report', \x7b\x7d).get('project')` and
`verdict['dice']['decision']` (`none` models an absent key). -/
structure Verdict where
  reportProject : Option String
  decision : Option String
deriving DecidableEq, Repr

/-- Outcome of the `_cond_is_diced` guard when it does not raise. -/
inductive DiceCond
  | refusedDryRun (verdict_txt : String)
  | accepted (decision : String)
deriving DecidableEq, Repr

/-- The tail of `_cond_is_diced` once a verdict is in hand: read
`verdict['dice']['decision']` (a missing key would be a `KeyError`),
then under dry-run surface the YAML-dumped verdict as `result` and
refuse the transition, otherwise accept with the decision. -/
def _cond_is_diced_rest (vdump : Verdict → String) (dry_run : Bool)
    (v : Verdict) : Except Fault DiceCond :=
  match v.decision with
  | none => .error .keyError
  | some d =>
      if dry_run then .ok (.refusedDryRun (vdump v))
      else .ok (.accepted d)

/-- Source `Project._cond_is_diced`: exactly one of `verdict`/`tstamp_txt`
must be supplied (a failed `assert` otherwise).  Only when raw
response text is supplied is it parsed and the embedded project id
checked against `pname` -- a mismatch raises (the source's
`CmdException`; note its `%`-formatting is applied to a single string
with two placeholders, so at runtime the raise is actually a
`TypeError`, but a raise either way).  A verdict supplied already
parsed is *not* cross-checked. -/
def _cond_is_diced (parse : String → Verdict) (vdump : Verdict → String)
    (pname : String) (dry_run : Bool)
    (verdict? : Option Verdict) (tstamp_txt? : Option String) :
    Except Fault DiceCond :=
  match verdict?, tstamp_txt? with
  | none, none => .error .assertViolation
  | some _, some _ => .error .assertViolation
  | some v, none => _cond_is_diced_rest vdump dry_run v
  | none, some txt =>
      let v := parse txt
      if v.reportProject == some pname then
        _cond_is_diced_rest vdump dry_run v
      else .error .projectIdMismatch

/-- The `do_storedice` trigger: the single row `mailed → diced`
guarded by `_cond_is_diced`.  A raising guard propagates (the state is
untouched); a false guard (dry-run) leaves the state at `mailed` with
the verdict text already stored as `result` by the guard itself; a
true guard fires the transition, and `_cb_commit_or_tag` commits the
`"diced as <decision>"` record in the new `diced` state. -/
def do_storedice (yamlDump : YVal → String)
    (sign : String → String → Option String)
    (parse : String → Verdict) (vdump : Verdict → String)
    (p : Proj) (r : GitRepo)
    (verdict? : Option Verdict) (tstamp_txt? : Option String) :
    Except Fault (Proj × GitRepo × Bool) :=
  match p.state with
  | .mailed =>
      match _cond_is_diced parse vdump p.pname p.dry_run verdict? tstamp_txt? with
      | .error f => .error f
      | .ok (.refusedDryRun verdict_txt) =>
          .ok ({ p with result := some verdict_txt }, r, false)
      | .ok (.accepted decision) =>
          let action := "diced as " ++ decision
          let p1 : Proj := { p with result := none, state := .diced }
          let cmsg := _make_commit_msg yamlDump p.pname .diced action none
          match _cb_commit_or_tag sign r p.pname p.max_dices_per_project
              .diced (some action) cmsg with
          | .ok (r2, .committed res) =>
              .ok ({ p1 with result := some res }, r2, true)
          | .ok (r2, .skipped) => .ok (p1, r2, true)
          | .error (_, f) => .error f
  | _ => .error .machineError

/-! ### Project names and the registry (`ProjectsDB`) -/

/-- Python's `\w` on the ASCII names this subsystem handles. -/
def isWordChar (c : Char) : Bool := c.isAlpha || c.isDigit || c == '_'

/-- Class `[\w-]`. -/
def wordOrDash (c : Char) : Bool := isWordChar c || c == '-'

/-- Exactly `n` characters satisfying `p`, returning the rest. -/
def chompCount (p : Char → Bool) : Nat → List Char → Option (List Char)
  | 0, cs => some cs
  | _ + 1, [] => none
  | n + 1, c :: cs => if p c then chompCount p n cs else none

/-- A literal `-`. -/
def chompDash : List Char → Option (List Char)
  | '-' :: rest => some rest
  | _ => none

/-- Python's `$`: the end of the string, or just before one trailing
newline. -/
def endOfStr : List Char → Bool
  | [] => true
  | ['\n'] => true
  | _ => false

/-- Piece `\w\x7b2,3\x7d` when followed by `-` (or the anchor): since `-` is not a
word character the greedy match is deterministic -- take a third word
character exactly when there is one. -/
def word23 : List Char → Option (List Char)
  | a :: b :: rest =>
      if isWordChar a && isWordChar b then
        match rest with
        | c :: rest2 => if isWordChar c then some rest2 else some rest
        | [] => some []
      else none
  | _ => none

/-- The tail `-\d\x7b2\x7d-\w\x7b2,3\x7d-\d\x7b4\x7d-\d\x7b4\x7d$` of the
vehicle-family-id pattern. -/
def vfidTail (cs : List Char) : Bool :=
  match chompDash cs >>= chompCount Char.isDigit 2 >>= chompDash >>=
        word23 >>= chompDash >>= chompCount Char.isDigit 4 >>=
        chompDash >>= chompCount Char.isDigit 4 with
  | some rest => endOfStr rest
  | none => false

/-- Pattern `vehicle_family_id_regex`:
`^(?:IP|RL|RM|PR)-\d\x7b2\x7d-\w\x7b2,3\x7d-\d\x7b4\x7d-\d\x7b4\x7d$`. -/
def vehicle_family_id_match (s : String) : Bool :=
  match s.toList with
  | a :: b :: rest =>
      ((a == 'I' && b == 'P') || (a == 'R' && b == 'L') ||
       (a == 'R' && b == 'M') || (a == 'P' && b == 'R')) && vfidTail rest
  | _ => false

/-- Pattern `git_project_regex`: `^\w[\w-]+$`. -/
def git_project_match (s : String) : Bool :=
  match s.toList with
  | c :: rest =>
      isWordChar c &&
        (let core := match rest.getLast? with
          | some '\n' => rest.dropLast
          | _ => rest
         !core.isEmpty && core.all wordOrDash)
  | [] => false

/-- Source `ProjectsDB.validate_project_name`:
`pname and (self.force and git_project_regex.match(pname) or
vehicle_family_id_regex.match(pname))`. -/
def validate_project_name (db_force : Bool) (pname : String) : Bool :=
  !(pname == "") &&
    ((db_force && git_project_match pname) || vehicle_family_id_match pname)

/-- Source `_pname2ref_name`: the short branch name of a project ref
(`projects/<pname>`, with the `refs/heads/` and `projects/` prefixed
forms passed through). -/
def _pname2ref_name (pname : String) : String :=
  if strStartsWith pname "refs/heads/" then pname.drop "refs/heads/".length
  else if strStartsWith pname "projects/" then pname
  else "projects/" ++ pname

/-- The registry facade: the repository's branch ref names (short
names, as in `repo.heads`) and the registry's configured force
trait. -/
structure ProjectsDB where
  heads : List String
  force : Bool
deriving DecidableEq, Repr

/-- Source `ProjectsDB.proj_add`: validate the name (`CmdException` on
failure), refuse an existing project ref (`CmdException`), otherwise
check out a new orphan project branch and drive the freshly conceived
`Project` through `do_createme` into the `empty` state -- the
`_cb_stage_new_project_content` enter hook stages the `CO2MPAS`
marker file and sets the `new project` action, and
`_cb_commit_or_tag` commits it, creating the ref. -/
def proj_add (yamlDump : YVal → String) (db : ProjectsDB) (pname : String) :
    Except Fault (ProjectsDB × Proj) :=
  if !(validate_project_name db.force pname) then .error .invalidName
  else
    let prefname := _pname2ref_name pname
    if db.heads.contains prefname then .error .projectExists
    else
      let cmsg := _make_commit_msg yamlDump pname .empty "new project" none
      .ok ({ db with heads := db.heads ++ [prefname] },
           ⟨pname, .empty, some cmsg, db.force, false, 3⟩)

example : do_addfiles .empty ⟨["a"], [], []⟩ (some false) false
    = .ok (.wltp_inp, true) := rfl

/-- C2 (counterexample): from the `mailed` state -- an invalid source
for `add_files` with every kind-combination, so by the claim the
trigger should leave the state unchanged and return a falsy result --
the code instead raises `MachineError`, because `mailed` (like `BORN`
and `INVALID`) has no `do_addfiles` transition registered at all and
`ignore_invalid_triggers` is not set. -/
theorem C2_addfiles_invalid_raises_cex :
    addfilesDestSpec .mailed ⟨["f1"], [], []⟩ true = none ∧
    do_addfiles .mailed ⟨["f1"], [], []⟩ (some true) false
      = .error .machineError := ⟨rfl, rfl⟩

/-- C2 (amended): for every `add_files` call whose per-call force flag
is supplied explicitly, the outcome matches the spec's transition
table: a matching `(source, kind-combination, force)` tuple moves the
FSM to the table's dest with a truthy result, an invalid tuple whose
source state has at least one `add_files` transition leaves the state
unchanged with a falsy result, and from the states with no `add_files`
transition at all (`BORN`, `INVALID`, `mailed`) the trigger raises
`MachineError` instead of returning falsy. -/
theorem C2_addfiles_table_amended (s : PState) (pf : PFiles) (b t : Bool) :
    do_addfiles s pf (some b) t =
      match addfilesDestSpec s pf b with
      | some d => .ok (d, true)
      | none =>
          if s = .BORN ∨ s = .INVALID ∨ s = .mailed then .error .machineError
          else .ok (s, false) := by
  cases s <;>
    simp only [do_addfiles, addfilesDestSpec, _is_force, _is_inp_out_files,
      _is_inp_files, _is_out_files, _is_other_files, Option.getD,
      Bool.not_or, Bool.not_not] <;>
    (repeat' split) <;> simp_all

/-- The behaviour of the `_find_dice_tag` loop when, among the indices
it can inspect, exactly those below `k` carry a tag. -/
theorem find_go_spec (tags : List (String × String)) (tref : String)
    (fetchNext : Bool) (k : Nat) :
    ∀ fuel i, i ≤ k →
      (∀ j, j < i + fuel →
        (tagLookup tags (tagName tref j)).isSome = decide (j < k)) →
      _find_dice_tag_go tags tref fetchNext i fuel =
        if k < i + fuel then
          (if fetchNext then .ok (.nextName (tagName tref k))
           else if k = 0 then .ok .noTag
           else .ok (.tagRef (tagName tref (k - 1))))
        else .error .tooMany := by
  intro fuel
  induction fuel with
  | zero =>
      intro i hik _
      rw [if_neg (show ¬ k < i + 0 by omega)]
      rfl
  | succ fuel ih =>
      intro i hik hpres
      have hbound : i < i + (fuel + 1) := by omega
      by_cases hlt : i < k
      · have hsome : (tagLookup tags (tagName tref i)).isSome = true := by
          rw [hpres i hbound]; simp [hlt]
        rw [_find_dice_tag_go]
        cases hx : tagLookup tags (tagName tref i) with
        | none => simp [hx] at hsome
        | some v =>
            simp only [hx, Option.isNone_some, if_neg Bool.false_ne_true]
            rw [ih (i + 1) (by omega) (fun j hj => hpres j (by omega))]
            have harith : i + 1 + fuel = i + (fuel + 1) := by omega
            rw [harith]
      · have hieq : i = k := by omega
        subst hieq
        have hnone : (tagLookup tags (tagName tref i)).isNone = true := by
          have := hpres i hbound
          cases hx : tagLookup tags (tagName tref i) with
          | none => rfl
          | some v => rw [hx] at this; simp at this
        rw [_find_dice_tag_go]
        simp only [hnone, if_pos rfl]
        have hklt : i < i + (fuel + 1) := by omega
        rw [if_pos hklt]
        by_cases hk0 : i = 0
        · subst hk0; simp
        · have hk1 : (i == 0) = false := by simp [hk0]
          have hprev : (tagLookup tags (tagName tref (i - 1))).isSome = true := by
            rw [hpres (i - 1) (by omega)]
            simp; omega
          cases hx : tagLookup tags (tagName tref (i - 1)) with
          | none => rw [hx] at hprev; simp at hprev
          | some v => simp [hk1, hx, hk0]

/-- C6: `next_name` (`_find_dice_tag` with `fetch_next=True`) returns
the attempt-index-0 tag name when the project has no dice tag yet, and
index `k` when exactly the indices `0..k-1` exist; once all
`max_dices_per_project` indices exist it raises the
too-many-attempts `CmdException`. -/
theorem C6_next_name (tags : List (String × String)) (pname : String)
    (maxd k : Nat) (hk : k ≤ maxd)
    (hpres : ∀ j, j < maxd →
      (tagLookup tags (tagName (_tname2ref_name pname) j)).isSome
        = decide (j < k)) :
    _find_dice_tag tags pname maxd true =
      if k < maxd then
        .ok (.nextName (tagName (_tname2ref_name pname) k))
      else .error .tooMany := by
  have h := find_go_spec tags (_tname2ref_name pname) true k maxd 0
    (by omega) (fun j hj => hpres j (by omega))
  rw [_find_dice_tag, h]
  simp

/-- C6 witness: with dice tags 0 and 1 present for project `P` and a
bound of 3, the next tag name is `dices/P/2`; with all three indices
present, the call fails with the too-many-attempts error. -/
theorem C6_next_name_witness :
    _find_dice_tag [("dices/P/0", "t0"), ("dices/P/1", "t1")] "P" 3 true
      = .ok (.nextName "dices/P/2") ∧
    _find_dice_tag
      [("dices/P/0", "t0"), ("dices/P/1", "t1"), ("dices/P/2", "t2")]
      "P" 3 true = .error .tooMany := by
  constructor
  · have h := C6_next_name [("dices/P/0", "t0"), ("dices/P/1", "t1")]
      "P" 3 2 (by omega) (by decide)
    rw [h]; rfl
  · have h := C6_next_name
      [("dices/P/0", "t0"), ("dices/P/1", "t1"), ("dices/P/2", "t2")]
      "P" 3 3 (by omega) (by decide)
    rw [h]; rfl

/-- C8 (counterexample): `find_latest` (`_find_dice_tag` with
`fetch_next=False`) does *not* return the highest existing tag when
all `max_dices_per_project` indices are occupied -- it raises the
too-many-dices `CmdException`, contradicting the claim that it
"returns rather than raises" in that case. -/
theorem C8_find_latest_raises_cex :
    _find_dice_tag
      [("dices/P/0", "t0"), ("dices/P/1", "t1"), ("dices/P/2", "t2")]
      "P" 3 false = .error .tooMany := by
  have h := find_go_spec
    [("dices/P/0", "t0"), ("dices/P/1", "t1"), ("dices/P/2", "t2")]
    (_tname2ref_name "P") false 3 3 0 (by omega) (by decide)
  rw [_find_dice_tag, h]
  rfl

/-- C8 (amended): `find_latest` scans indices
`0..max_dices_per_project`; when exactly the indices `0..k-1` exist
contiguously it returns the highest existing tag (index `k - 1`), or
none when no tag exists (`k = 0`), *provided* some index below the
bound is still free (`k < max_dices_per_project`); when all
`max_dices_per_project` indices are occupied it raises the
too-many-dices `CmdException` instead of returning. -/
theorem C8_find_latest_amended (tags : List (String × String))
    (pname : String) (maxd k : Nat) (hk : k ≤ maxd)
    (hpres : ∀ j, j < maxd →
      (tagLookup tags (tagName (_tname2ref_name pname) j)).isSome
        = decide (j < k)) :
    _find_dice_tag tags pname maxd false =
      if k < maxd then
        (if k = 0 then .ok .noTag
         else .ok (.tagRef (tagName (_tname2ref_name pname) (k - 1))))
      else .error .tooMany := by
  have h := find_go_spec tags (_tname2ref_name pname) false k maxd 0
    (by omega) (fun j hj => hpres j (by omega))
  rw [_find_dice_tag, h]
  simp

/-- C8 amended witness: with tags 0 and 1 present and a bound of 3,
`find_latest` returns the tag with index 1; with no tags it returns
none. -/
theorem C8_find_latest_amended_witness :
    _find_dice_tag [("dices/P/0", "t0"), ("dices/P/1", "t1")] "P" 3 false
      = .ok (.tagRef "dices/P/1") ∧
    _find_dice_tag [] "P" 3 false = .ok .noTag := by
  constructor
  · have h := C8_find_latest_amended
      [("dices/P/0", "t0"), ("dices/P/1", "t1")] "P" 3 2 (by omega)
      (by decide)
    rw [h]; rfl
  · have h := C8_find_latest_amended [] "P" 3 0 (by omega) (by decide)
    rw [h]; rfl

/-- C4 (counterexample): the parsed version `1.00.0` has numeric major
1 and numeric minor 0, so by the claim (components compared as
numbers, major equal and minor not exceeding the implementation's
`1.0.2`) `check_version` should succeed -- but the code compares the
components as strings, and `'00' > '0'` lexicographically, so it
fails. -/
theorem C4_version_compare_cex :
    check_version_numeric_spec "1.00.0" = true ∧
    _check_commit_msg_version_ok "1.00.0" = false := by
  constructor <;> rfl

/-- C4 (amended): `check_version` succeeds exactly when the version
string has exactly three dot-separated components, the major component
is string-equal to the implementation's major `"1"`, and the minor
component does not exceed the implementation's minor `"0"` in
lexicographic *string* comparison (so `"1.00.0"` is rejected although
numerically compatible); in every other case it fails.  In particular
it accepts equal major+minor (`1.0.2`, `1.0.99`), rejects a differing
major (`2.0.2`) and rejects a higher minor (`1.1.0`). -/
theorem C4_check_version_amended :
    (∀ txt : String,
      _check_commit_msg_version_ok txt = true ↔
        ((splitDots txt.toList).length = 3 ∧
         (splitDots txt.toList).getD 0 [] = ['1'] ∧
         lexLt ['0'] ((splitDots txt.toList).getD 1 []) = false)) ∧
    _check_commit_msg_version_ok "1.0.2" = true ∧
    _check_commit_msg_version_ok "1.0.99" = true ∧
    _check_commit_msg_version_ok "2.0.2" = false ∧
    _check_commit_msg_version_ok "1.1.0" = false := by
  refine ⟨fun txt => ?_, rfl, rfl, rfl, rfl⟩
  have hp : splitDots __dice_report_version__.toList = [['1'], ['0'], ['2']] := rfl
  simp only [_check_commit_msg_version_ok, hp, List.getD_cons_zero,
    List.getD_cons_succ, Bool.not_or, Bool.and_eq_true, Bool.not_eq_true',
    bne_eq_false_iff_eq, beq_iff_eq]
  constructor
  · rintro ⟨⟨h1, h2⟩, h3⟩
    exact ⟨h1, h2, h3⟩
  · rintro ⟨h1, h2, h3⟩
    exact ⟨⟨h1, h2⟩, h3⟩

/-- C4 amended witness: a concrete instance of the characterization at
the compatible version string `1.0.2`. -/
theorem C4_check_version_amended_witness :
    _check_commit_msg_version_ok "1.0.2" = true :=
  (C4_check_version_amended.1 "1.0.2").2 (by decide)

/-- C1: if the sign-and-tag step of entering `tagged` fails after the
commit succeeded (the dice-tag bound is exhausted, the tag-name
assertion fails, or the external signer fails), the branch is reset to
the commit's immediate parent, so the head commit chain after the
failed call equals the one before the call -- the ref never parks on
a commit whose matching signed tag failed to materialize. -/
theorem C1_rollback_on_tag_failure (sign : String → String → Option String)
    (r : GitRepo) (pname : String) (maxd : Nat) (action cmsg : String)
    (r' : GitRepo) (f : Fault)
    (h : _cb_commit_or_tag sign r pname maxd .tagged (some action) cmsg
          = .error (r', f)) :
    r'.commits = r.commits := by
  simp only [_cb_commit_or_tag, PState.isUpperState, Option.isNone_some,
    Bool.or_self, Bool.false_eq_true, if_false, beq_self_eq_true, if_true] at h
  cases hfind : _find_dice_tag r.tags pname maxd true with
  | error f2 =>
      rw [hfind] at h
      dsimp only at h
      simp only [List.tail_cons, Except.error.injEq, Prod.mk.injEq] at h
      obtain ⟨h1, -⟩ := h
      rw [← h1]
  | ok fr =>
      rw [hfind] at h
      cases fr with
      | nextName tn =>
          dsimp only at h
          cases hs : sign tn cmsg with
          | some c => rw [hs] at h; simp at h
          | none =>
              rw [hs] at h
              simp only [List.tail_cons, Except.error.injEq, Prod.mk.injEq] at h
              obtain ⟨h1, -⟩ := h
              rw [← h1]
      | noTag =>
          dsimp only at h
          simp only [List.tail_cons, Except.error.injEq, Prod.mk.injEq] at h
          obtain ⟨h1, -⟩ := h
          rw [← h1]
      | tagRef tn =>
          dsimp only at h
          simp only [List.tail_cons, Except.error.injEq, Prod.mk.injEq] at h
          obtain ⟨h1, -⟩ := h
          rw [← h1]

/-- C1 witness: a concrete failed sign step (the signer collaborator
returns `none`): the call fails with `signFail` and the head chain is
still `["c0"]`. -/
theorem C1_rollback_witness :
    (_cb_commit_or_tag (fun _ _ => none) ⟨["c0"], []⟩ "P" 3 .tagged
        (some "drep 2 files") "M"
      = .error (⟨["c0"], []⟩, .signFail)) ∧
    (⟨["c0"], []⟩ : GitRepo).commits = ["c0"] :=
  ⟨rfl, C1_rollback_on_tag_failure (fun _ _ => none) ⟨["c0"], []⟩ "P" 3
    "drep 2 files" "M" ⟨["c0"], []⟩ .signFail rfl⟩

/-- C5: round-trip -- decoding an encoded `CommitMsg` reproduces the
version, action, project-id, state and the payload record list
unchanged, for arbitrary payload length including the empty payload,
provided the YAML collaborator round-trips the dumped value, the dump
does not start with a banner line, and the record's version passes the
version check (as every record built by `_make_commit_msg` does). -/
theorem C5_roundtrip (yamlDump : YVal → String) (load : String → Option YVal)
    (r : CommitMsg) (l : List YVal)
    (hdata : r.data = some l)
    (hload : load (dump_commit_msg yamlDump r) = some (commitMsgClist r))
    (hbanner : _git_messaged_obj_match (dump_commit_msg yamlDump r) = false)
    (hver : _check_commit_msg_version_ok (YVal.strOf r.v) = true) :
    parse_commit_msg load (dump_commit_msg yamlDump r) = .ok r := by
  obtain ⟨v, a, p, st, data⟩ := r
  have hdata' : data = some l := hdata
  subst hdata'
  simp only [parse_commit_msg, hbanner, Bool.false_eq_true, if_false, hload,
    commitMsgClist, lookupY]
  simp [hver]

/-- C5 witness: a concrete record with empty payload round-trips under
a concrete (pointwise-inverse) dump/load pair. -/
theorem C5_roundtrip_witness :
    parse_commit_msg
      (fun _ => some (commitMsgClist
        ⟨.str "1.0.2", .str "new project", .str "PRJ", .str "empty", some []⟩))
      (dump_commit_msg (fun _ => "- v: 1.0.2")
        ⟨.str "1.0.2", .str "new project", .str "PRJ", .str "empty", some []⟩)
      = .ok ⟨.str "1.0.2", .str "new project", .str "PRJ", .str "empty",
          some []⟩ :=
  C5_roundtrip (fun _ => "- v: 1.0.2")
    (fun _ => some (commitMsgClist
      ⟨.str "1.0.2", .str "new project", .str "PRJ", .str "empty", some []⟩))
    ⟨.str "1.0.2", .str "new project", .str "PRJ", .str "empty", some []⟩
    [] rfl rfl (by decide) (by decide)

/-- C3 (counterexample): a verdict supplied *already parsed* whose
embedded project id (`Q`) differs from the in-memory project's pname
(`P`) does not raise: the id cross-check only happens on the
raw-text path, so `store_verdict` fires and the state becomes `diced`
instead of staying `mailed` with a `ProjectIdMismatch`. -/
theorem C3_parsed_mismatch_cex :
    (Verdict.mk (some "Q") (some "OK")).reportProject ≠ some "P" ∧
    do_storedice (fun _ => "Y") (fun _ _ => none) (fun _ => ⟨none, none⟩)
        (fun _ => "V") ⟨"P", .mailed, none, false, false, 3⟩ ⟨[], []⟩
        (some ⟨some "Q", some "OK"⟩) none
      = .ok (⟨"P", .diced, some "Y", false, false, 3⟩, ⟨["Y"], []⟩, true) :=
  ⟨by simp, rfl⟩

/-- C3 (amended): the embedded-project-id check happens only when the
verdict is supplied as raw timestamp-response text: on that path a
mismatch raises the hard fault (not consulting the force trait) and
the project stays `mailed`; a verdict supplied already parsed is never
cross-checked, and (decision present, not dry-run) simply fires the
transition to `diced`. -/
theorem C3_store_verdict_amended (yamlDump : YVal → String)
    (sign : String → String → Option String)
    (parse : String → Verdict) (vdump : Verdict → String)
    (pname txt : String) (res0 : Option String) (r : GitRepo)
    (v : Verdict) (d : String) (hd : v.decision = some d) :
    (((parse txt).reportProject == some pname) = false →
      do_storedice yamlDump sign parse vdump
          ⟨pname, .mailed, res0, false, false, 3⟩ r none (some txt)
        = .error .projectIdMismatch) ∧
    do_storedice yamlDump sign parse vdump
        ⟨pname, .mailed, res0, false, false, 3⟩ r (some v) none
      = .ok (⟨pname, .diced,
             some (_make_commit_msg yamlDump pname .diced
               ("diced as " ++ d) none),
             false, false, 3⟩,
           ⟨_make_commit_msg yamlDump pname .diced ("diced as " ++ d) none
               :: r.commits,
            r.tags⟩, true) := by
  constructor
  · intro hmm2
    simp only [do_storedice, _cond_is_diced, hmm2, Bool.false_eq_true,
      if_false]
  · simp only [do_storedice, _cond_is_diced, _cond_is_diced_rest, hd]
    rfl

/-- C3 amended witness: both branches at concrete inputs -- the raw
path with mismatching id `Q` raises, the parsed path with the same
mismatching id fires to `diced`. -/
theorem C3_store_verdict_amended_witness :
    do_storedice (fun _ => "Y") (fun _ _ => none)
        (fun _ => ⟨some "Q", some "OK"⟩) (fun _ => "V")
        ⟨"P", .mailed, none, false, false, 3⟩ ⟨[], []⟩ none (some "raw")
      = .error .projectIdMismatch ∧
    do_storedice (fun _ => "Y") (fun _ _ => none)
        (fun _ => ⟨some "Q", some "OK"⟩) (fun _ => "V")
        ⟨"P", .mailed, none, false, false, 3⟩ ⟨[], []⟩
        (some ⟨some "Q", some "OK"⟩) none
      = .ok (⟨"P", .diced,
             some (_make_commit_msg (fun _ => "Y") "P" .diced
               ("diced as " ++ "OK") none),
             false, false, 3⟩,
           ⟨_make_commit_msg (fun _ => "Y") "P" .diced
               ("diced as " ++ "OK") none :: [], []⟩, true) :=
  ⟨(C3_store_verdict_amended (fun _ => "Y") (fun _ _ => none)
      (fun _ => ⟨some "Q", some "OK"⟩) (fun _ => "V") "P" "raw" none
      ⟨[], []⟩ ⟨some "Q", some "OK"⟩ "OK" rfl).1 (by decide),
   (C3_store_verdict_amended (fun _ => "Y") (fun _ _ => none)
      (fun _ => ⟨some "Q", some "OK"⟩) (fun _ => "V") "P" "raw" none
      ⟨[], []⟩ ⟨some "Q", some "OK"⟩ "OK" rfl).2⟩

/-- C9 (counterexample): two invocations of the same `store_verdict`
trigger with identical per-call arguments, on projects that differ
*only* in the configured `dry_run` trait, do not behave identically:
the trait is read from ambient per-project configuration, not carried
per invocation, so one run fires to `diced` while the other is refused
and stays `mailed` with the verdict text as `result`. -/
theorem C9_ambient_dry_run_cex :
    do_storedice (fun _ => "Y") (fun _ _ => none) (fun _ => ⟨none, none⟩)
        (fun _ => "V") ⟨"P", .mailed, none, false, false, 3⟩ ⟨[], []⟩
        (some ⟨some "P", some "OK"⟩) none
      = .ok (⟨"P", .diced, some "Y", false, false, 3⟩, ⟨["Y"], []⟩, true) ∧
    do_storedice (fun _ => "Y") (fun _ _ => none) (fun _ => ⟨none, none⟩)
        (fun _ => "V") ⟨"P", .mailed, none, false, true, 3⟩ ⟨[], []⟩
        (some ⟨some "P", some "OK"⟩) none
      = .ok (⟨"P", .mailed, some "V", false, true, 3⟩, ⟨[], []⟩, false) :=
  ⟨rfl, rfl⟩

/-- C9 (amended): only when the per-call `force` keyword is supplied
explicitly is the `_is_force` guard independent of the configured
trait: `add_files` invocations with an explicit per-call force flag
behave identically on projects with different force traits.  (When
the keyword is omitted the guard falls back to the trait, and
`dry_run` is always read from the trait -- see the counterexample.) -/
theorem C9_explicit_force_trait_independent (s : PState) (pf : PFiles)
    (b t1 t2 : Bool) :
    do_addfiles s pf (some b) t1 = do_addfiles s pf (some b) t2 := by
  simp only [do_addfiles, _is_force, Option.getD_some]

/-- C10: `proj_add` raises the invalid-name `CmdException` when the
name fails validation (the vehicle-family-id pattern, or the looser
git-name pattern only under force) and the raised `CmdException` when
the project branch already exists -- in both cases creating no ref --
and only otherwise creates the new project branch and drives the new
project into the `empty` state (committing the `new project`
record). -/
theorem C10_proj_add (yamlDump : YVal → String) (db : ProjectsDB)
    (pname : String) :
    (validate_project_name db.force pname = false →
      proj_add yamlDump db pname = .error .invalidName) ∧
    (validate_project_name db.force pname = true →
      db.heads.contains (_pname2ref_name pname) = true →
      proj_add yamlDump db pname = .error .projectExists) ∧
    (validate_project_name db.force pname = true →
      db.heads.contains (_pname2ref_name pname) = false →
      proj_add yamlDump db pname
        = .ok ({ db with heads := db.heads ++ [_pname2ref_name pname] },
            ⟨pname, .empty,
             some (_make_commit_msg yamlDump pname .empty "new project" none),
             db.force, false, 3⟩)) := by
  refine ⟨fun hv => ?_, fun hv hc => ?_, fun hv hc => ?_⟩
  · simp [proj_add, hv]
  · have hm : _pname2ref_name pname ∈ db.heads := by simpa using hc
    simp [proj_add, hv, hm]
  · have hm : _pname2ref_name pname ∉ db.heads := by simpa using hc
    simp [proj_add, hv, hm]

/-- C10 witness: a malformed name is rejected, a clashing name is
rejected, and the well-formed fresh vehicle-family-id
`RL-12-BM3-2016-0000` creates the branch `projects/RL-12-BM3-2016-0000`
and lands in `empty`. -/
theorem C10_proj_add_witness :
    proj_add (fun _ => "Y") ⟨[], false⟩ "bad name" = .error .invalidName ∧
    proj_add (fun _ => "Y") ⟨["projects/RL-12-BM3-2016-0000"], false⟩
        "RL-12-BM3-2016-0000" = .error .projectExists ∧
    proj_add (fun _ => "Y") ⟨[], false⟩ "RL-12-BM3-2016-0000"
      = .ok (⟨["projects/RL-12-BM3-2016-0000"], false⟩,
          ⟨"RL-12-BM3-2016-0000", .empty,
           some (_make_commit_msg (fun _ => "Y") "RL-12-BM3-2016-0000"
             .empty "new project" none),
           false, false, 3⟩) :=
  ⟨(C10_proj_add (fun _ => "Y") ⟨[], false⟩ "bad name").1 (by decide),
   (C10_proj_add (fun _ => "Y") ⟨["projects/RL-12-BM3-2016-0000"], false⟩
      "RL-12-BM3-2016-0000").2.1 (by decide) (by decide),
   by
    have h := (C10_proj_add (fun _ => "Y") ⟨[], false⟩
      "RL-12-BM3-2016-0000").2.2 (by decide) (by decide)
    simpa using h⟩

/-- Lookup distributes over appending tag lists when the key is absent
from the first part. -/
theorem tagLookup_append_none (t1 t2 : List (String × String)) (n : String)
    (h : tagLookup t1 n = none) : tagLookup (t1 ++ t2) n = tagLookup t2 n := by
  induction t1 with
  | nil => rfl
  | cons e es ih =>
      simp only [List.cons_append, tagLookup] at h ⊢
      cases hc : (e.1 == n)
      · simp only [hc, Bool.false_eq_true, if_false] at h ⊢
        exact ih h
      · simp only [hc, if_true] at h
        exact absurd h (by simp)

/-- Dice-tag names with different printed indices differ. -/
theorem tagName_ne_of_repr_ne (tref : String) (i j : Nat)
    (h : Nat.repr i ≠ Nat.repr j) : tagName tref i ≠ tagName tref j := by
  intro he
  apply h
  apply String.ext
  have hd := congrArg String.data he
  rw [tagName, tagName, String.data_append, String.data_append,
    String.data_append, String.data_append, List.append_assoc,
    List.append_assoc] at hd
  exact List.append_cancel_left (List.append_cancel_left hd)

/-- C7: idempotence of "prepare report".  From `wltp_iof` with no
dice tag yet (force and dry-run off, the default bound of 3 attempts),
the first `do_prepmail` commits the report record, creates the
attempt-0 dice tag and surfaces its signed content `c` as `result`;
calling `do_prepmail` again (now from `tagged`) finds the existing
tag, skips regeneration -- even if the extraction collaborator would
now return a different report -- performs no commit and no second
tagging (the repository is returned unchanged), and surfaces the same
existing signed content `c` as `result`. -/
theorem C7_prepare_report_idempotent (yamlDump : YVal → String)
    (sign0 : String → String → String) (report report2 : List YVal)
    (nfiles nfiles2 : Nat) (pname : String) (res0 : Option String)
    (r : GitRepo) (cmsg c : String) (p1 : Proj) (r1 : GitRepo)
    (hnotags : ∀ j, j < 3 →
      tagLookup r.tags (tagName (_tname2ref_name pname) j) = none)
    (hcmsg : cmsg = _make_commit_msg yamlDump pname .tagged
      ("drep " ++ Nat.repr nfiles ++ " files") (some report))
    (hc : c = sign0 (tagName (_tname2ref_name pname) 0) cmsg)
    (hp1 : p1 = ⟨pname, .tagged, some c, false, false, 3⟩)
    (hr1 : r1 = ⟨cmsg :: r.commits,
      r.tags ++ [(tagName (_tname2ref_name pname) 0, c)]⟩) :
    do_prepmail yamlDump (fun n m => some (sign0 n m)) report nfiles
        ⟨pname, .wltp_iof, res0, false, false, 3⟩ r = .ok (p1, r1, true) ∧
    do_prepmail yamlDump (fun n m => some (sign0 n m)) report2 nfiles2 p1 r1
      = .ok (p1, r1, true) := by
  have hpres0 : ∀ j, j < 0 + 3 →
      (tagLookup r.tags (tagName (_tname2ref_name pname) j)).isSome
        = decide (j < 0) := by
    intro j hj
    rw [hnotags j (by omega)]
    simp
  have hfindF : _find_dice_tag r.tags pname 3 false = .ok .noTag := by
    have h := find_go_spec r.tags (_tname2ref_name pname) false 0 3 0
      (by omega) hpres0
    rw [_find_dice_tag, h]
    simp
  have hfindT : _find_dice_tag r.tags pname 3 true
      = .ok (.nextName (tagName (_tname2ref_name pname) 0)) := by
    have h := find_go_spec r.tags (_tname2ref_name pname) true 0 3 0
      (by omega) hpres0
    rw [_find_dice_tag, h]
    simp
  have hct : _cb_commit_or_tag (fun n m => some (sign0 n m)) r pname 3 .tagged
      (some ("drep " ++ Nat.repr nfiles ++ " files")) cmsg
      = .ok (r1, .committed c) := by
    simp only [_cb_commit_or_tag, PState.isUpperState, Option.isNone_some,
      Bool.or_self, Bool.false_eq_true, if_false, beq_self_eq_true, if_true]
    rw [hfindT]
    dsimp only
    rw [← hc, hr1]
  have hne1 : (tagName (_tname2ref_name pname) 0
      == tagName (_tname2ref_name pname) 1) = false := by
    rw [beq_eq_false_iff_ne]
    exact tagName_ne_of_repr_ne _ 0 1 (by decide)
  have hne2 : (tagName (_tname2ref_name pname) 0
      == tagName (_tname2ref_name pname) 2) = false := by
    rw [beq_eq_false_iff_ne]
    exact tagName_ne_of_repr_ne _ 0 2 (by decide)
  have h0 : tagLookup r1.tags (tagName (_tname2ref_name pname) 0)
      = some c := by
    rw [hr1]
    rw [tagLookup_append_none _ _ _ (hnotags 0 (by omega))]
    simp [tagLookup]
  have h1 : tagLookup r1.tags (tagName (_tname2ref_name pname) 1)
      = none := by
    rw [hr1]
    rw [tagLookup_append_none _ _ _ (hnotags 1 (by omega))]
    simp [tagLookup, hne1]
  have h2 : tagLookup r1.tags (tagName (_tname2ref_name pname) 2)
      = none := by
    rw [hr1]
    rw [tagLookup_append_none _ _ _ (hnotags 2 (by omega))]
    simp [tagLookup, hne2]
  have hfind2 : _find_dice_tag r1.tags pname 3 false
      = .ok (.tagRef (tagName (_tname2ref_name pname) 0)) := by
    have h := find_go_spec r1.tags (_tname2ref_name pname) false 1 3 0
      (by omega) ?_
    · rw [_find_dice_tag, h]
      simp
    · intro j hj
      interval_cases j
      · simp [h0]
      · simp [h1]
      · simp [h2]
  constructor
  · simp only [do_prepmail, do_prepmail_fire]
    rw [hfindF]
    dsimp only
    rw [← hcmsg, hct]
    dsimp only
    rw [hp1]
    simp
  · rw [hp1, hr1] at *
    simp only [do_prepmail, do_prepmail_fire]
    rw [hfind2]
    dsimp only [read_dice_tag]
    rw [h0]

/-- C7 witness: a concrete double run -- the first call commits and
creates `dices/P/0` with signed content `SIG`; the second call (with a
different extraction result) returns the same `result` and the same
repository: no second commit, no second tag. -/
theorem C7_prepare_report_idempotent_witness :
    do_prepmail (fun _ => "Y") (fun n m => some ((fun _ _ => "SIG") n m)) [] 2
        ⟨"P", .wltp_iof, none, false, false, 3⟩ ⟨["c0"], []⟩
      = .ok (⟨"P", .tagged, some "SIG", false, false, 3⟩,
          ⟨["Y", "c0"], [("dices/P/0", "SIG")]⟩, true) ∧
    do_prepmail (fun _ => "Y") (fun n m => some ((fun _ _ => "SIG") n m))
        [.str "x"] 5 ⟨"P", .tagged, some "SIG", false, false, 3⟩
        ⟨["Y", "c0"], [("dices/P/0", "SIG")]⟩
      = .ok (⟨"P", .tagged, some "SIG", false, false, 3⟩,
          ⟨["Y", "c0"], [("dices/P/0", "SIG")]⟩, true) :=
  C7_prepare_report_idempotent (fun _ => "Y") (fun _ _ => "SIG") [] [.str "x"]
    2 5 "P" none ⟨["c0"], []⟩ "Y" "SIG"
    ⟨"P", .tagged, some "SIG", false, false, 3⟩
    ⟨["Y", "c0"], [("dices/P/0", "SIG")]⟩
    (by decide) rfl rfl rfl rfl

end CO2MPAS
